import Mathlib

/-!
Verification of the Octobase infinite pan/zoom canvas core.

The definitions below are a shallow embedding of the viewport code of the
repository: `src/components/Canvas.tsx` (view transform, hit testing, the
mouse interaction handlers) and `src/App.tsx` (the shape-move callbacks).
Coordinates are embedded as exact rationals (the source uses IEEE-754
doubles); where the source's behaviour hinges on division by zero, the
embedding tracks the IEEE special values explicitly via `JSNum`.
-/

namespace Octobase

/-- Shape kinds, from the `Shape` interface in `src/App.tsx`:
`'square' | 'circle' | 'triangle' | 'text'`. -/
inductive ShapeKind where
  | square
  | circle
  | triangle
  | text
deriving DecidableEq, Repr

/-- The `Shape` interface of `src/App.tsx`: `(x, y)` is the logical top-left
of the bounding box, `width`/`height` its extent. -/
structure Shape where
  id : String
  type : ShapeKind
  x : ℚ
  y : ℚ
  width : ℚ
  height : ℚ
  color : String
  content : Option String
deriving DecidableEq, Repr

/-- The `ViewState` of `Canvas.tsx`: the affine map logical→screen,
`screen = logical * zoom + (x, y)`. -/
structure ViewState where
  x : ℚ
  y : ℚ
  zoom : ℚ
deriving DecidableEq, Repr

/-- Embedding of `screenToWorld` from `src/utils/coordinateUtils.ts` (its
source is staged in `src/src/App.tsx` after the related-doc separator):
canvas-relative screen coordinates to world coordinates,
`x: (screenX - viewState.x) / viewState.zoom`,
`y: (screenY - viewState.y) / viewState.zoom` — the same formula the inline
conversions in `Canvas.tsx` use (`worldX = (mouseX - prev.x) / prev.zoom`). -/
def screenToWorld (screenX screenY : ℚ) (vs : ViewState) : ℚ × ℚ :=
  ((screenX - vs.x) / vs.zoom, (screenY - vs.y) / vs.zoom)

/-- Embedding of `clientToWorld` from `src/utils/coordinateUtils.ts` (source
staged in `src/src/App.tsx` after the related-doc separator): window client
coordinates are first made canvas-relative by subtracting the canvas bounding
rectangle's top-left corner (`screenX = clientX - canvasRect.left`,
`screenY = clientY - canvasRect.top`), then converted with `screenToWorld`. -/
def clientToWorld (clientX clientY rectLeft rectTop : ℚ) (vs : ViewState) : ℚ × ℚ :=
  screenToWorld (clientX - rectLeft) (clientY - rectTop) vs

/-- The zoom branch of `handleWheel` in `Canvas.tsx` (identical formula in the
pinch branch of `handleGestureMove`): clamp the rescaled zoom to `[0.1, 5]`
with `Math.max(0.1, Math.min(5, prev.zoom * zoomFactor))`, compute the logical
point under the pivot with the pre-update view state, and recompute the offset
so that this logical point maps back to the pivot.  For the wheel, `factor`
is `0.9` or `1.1`; for a pinch it is the finger-distance ratio. -/
def zoomAt (prev : ViewState) (mouseX mouseY factor : ℚ) : ViewState :=
  let newZoom := max (1/10) (min 5 (prev.zoom * factor))
  let worldX := (mouseX - prev.x) / prev.zoom
  let worldY := (mouseY - prev.y) / prev.zoom
  { x := mouseX - worldX * newZoom
    y := mouseY - worldY * newZoom
    zoom := newZoom }

/-- The `setViewState` command of the imperative `CanvasHandle`
(`useImperativeHandle` in `Canvas.tsx`): it stores the requested view state
unchanged — `setViewState: (newViewState) => { setViewState(newViewState) }`. -/
def setViewStateCmd (req : ViewState) : ViewState :=
  req

/-- Embedding of `centerAtOrigin` in `Canvas.tsx`: place logical `(0,0)` at the viewport
center with zoom 1. -/
def centerAtOrigin (canvasWidth canvasHeight : ℚ) : ViewState :=
  { x := canvasWidth / 2, y := canvasHeight / 2, zoom := 1 }

/-- Left edge a shape contributes to the fit-to-view bounding box
(`fitToView` in `Canvas.tsx`): squares, triangles and text use `shape.x`;
circles use the inscribed-circle left edge `x + w/2 - min(w,h)/2`. -/
def shapeBoundLeft (s : Shape) : ℚ :=
  match s.type with
  | .circle => s.x + s.width / 2 - min s.width s.height / 2
  | _ => s.x

/-- Top edge a shape contributes to the fit-to-view bounding box. -/
def shapeBoundTop (s : Shape) : ℚ :=
  match s.type with
  | .circle => s.y + s.height / 2 - min s.width s.height / 2
  | _ => s.y

/-- Right edge a shape contributes to the fit-to-view bounding box. -/
def shapeBoundRight (s : Shape) : ℚ :=
  match s.type with
  | .circle => s.x + s.width / 2 + min s.width s.height / 2
  | _ => s.x + s.width

/-- Bottom edge a shape contributes to the fit-to-view bounding box. -/
def shapeBoundBottom (s : Shape) : ℚ :=
  match s.type with
  | .circle => s.y + s.height / 2 + min s.width s.height / 2
  | _ => s.y + s.height

/-- The `minX` accumulated by `fitToView` over a non-empty shape list,
padding of 50 subtracted.  The source starts the fold at `Infinity`; over a
non-empty list that equals folding from the first shape's bound. -/
def boundsMinX (s : Shape) (rest : List Shape) : ℚ :=
  (rest.foldl (fun acc sh => min acc (shapeBoundLeft sh)) (shapeBoundLeft s)) - 50

/-- The `minY` accumulated by `fitToView`, padding subtracted. -/
def boundsMinY (s : Shape) (rest : List Shape) : ℚ :=
  (rest.foldl (fun acc sh => min acc (shapeBoundTop sh)) (shapeBoundTop s)) - 50

/-- The `maxX` accumulated by `fitToView`, padding added. -/
def boundsMaxX (s : Shape) (rest : List Shape) : ℚ :=
  (rest.foldl (fun acc sh => max acc (shapeBoundRight sh)) (shapeBoundRight s)) + 50

/-- The `maxY` accumulated by `fitToView`, padding added. -/
def boundsMaxY (s : Shape) (rest : List Shape) : ℚ :=
  (rest.foldl (fun acc sh => max acc (shapeBoundBottom sh)) (shapeBoundBottom s)) + 50

/-- Embedding of `fitToView` in `Canvas.tsx`: with no shapes, center the origin at zoom 1
(`centerAtOrigin`); otherwise compute the padded bounding box of all shapes,
take `zoom = Math.min(canvasWidth/boundsWidth, canvasHeight/boundsHeight, 2)`
and center the box in the viewport. -/
def fitToView (shapes : List Shape) (canvasWidth canvasHeight : ℚ) : ViewState :=
  match shapes with
  | [] => centerAtOrigin canvasWidth canvasHeight
  | s :: rest =>
    let minX := boundsMinX s rest
    let minY := boundsMinY s rest
    let maxX := boundsMaxX s rest
    let maxY := boundsMaxY s rest
    let boundsWidth := maxX - minX
    let boundsHeight := maxY - minY
    let centerX := (minX + maxX) / 2
    let centerY := (minY + maxY) / 2
    let scaleX := canvasWidth / boundsWidth
    let scaleY := canvasHeight / boundsHeight
    let newZoom := min (min scaleX scaleY) 2
    { x := canvasWidth / 2 - centerX * newZoom
      y := canvasHeight / 2 - centerY * newZoom
      zoom := newZoom }

/-- IEEE-754 value as produced by the hit-test arithmetic of the source: a
finite number (embedded exactly as a rational, idealizing rounding), one of
the two infinities, or NaN.  The source performs an unguarded division
`1 / (dot00 * dot11 - dot01 * dot01)` whose divisor is zero for degenerate
triangles, so the special values are part of its behaviour.  The rational
model has no negative zero; in JavaScript the divisor may be `-0`, flipping
the sign of the resulting infinity, which does not affect any result proved
below (the hit test fails for either infinity). -/
inductive JSNum where
  | fin : ℚ → JSNum
  | pinf : JSNum
  | ninf : JSNum
  | nan : JSNum
deriving DecidableEq, Repr

namespace JSNum

/-- IEEE-754 addition on `JSNum` (exact on finite values). -/
def add : JSNum → JSNum → JSNum
  | fin a, fin b => fin (a + b)
  | fin _, pinf => pinf
  | pinf, fin _ => pinf
  | fin _, ninf => ninf
  | ninf, fin _ => ninf
  | pinf, pinf => pinf
  | ninf, ninf => ninf
  | pinf, ninf => nan
  | ninf, pinf => nan
  | nan, _ => nan
  | _, nan => nan

/-- IEEE-754 multiplication on `JSNum` (exact on finite values):
`0 * ±∞ = NaN`, otherwise a finite value times an infinity is an infinity of
the product sign. -/
def mul : JSNum → JSNum → JSNum
  | fin a, fin b => fin (a * b)
  | fin a, pinf => if a = 0 then nan else if 0 < a then pinf else ninf
  | fin a, ninf => if a = 0 then nan else if 0 < a then ninf else pinf
  | pinf, fin b => if b = 0 then nan else if 0 < b then pinf else ninf
  | ninf, fin b => if b = 0 then nan else if 0 < b then ninf else pinf
  | pinf, pinf => pinf
  | pinf, ninf => ninf
  | ninf, pinf => ninf
  | ninf, ninf => pinf
  | nan, _ => nan
  | _, nan => nan

/-- IEEE-754 division on `JSNum` (exact on finite values): a nonzero finite
value divided by zero is an infinity, `0 / 0 = NaN`. -/
def div : JSNum → JSNum → JSNum
  | fin a, fin b =>
      if b = 0 then (if a = 0 then nan else if 0 < a then pinf else ninf)
      else fin (a / b)
  | fin _, pinf => fin 0
  | fin _, ninf => fin 0
  | pinf, fin b => if 0 ≤ b then pinf else ninf
  | ninf, fin b => if 0 ≤ b then ninf else pinf
  | pinf, pinf => nan
  | pinf, ninf => nan
  | ninf, pinf => nan
  | ninf, ninf => nan
  | nan, _ => nan
  | _, nan => nan

/-- IEEE-754 `<=` comparison on `JSNum`: any comparison with NaN is false. -/
def le : JSNum → JSNum → Bool
  | fin a, fin b => decide (a ≤ b)
  | nan, _ => false
  | _, nan => false
  | ninf, _ => true
  | _, pinf => true
  | pinf, fin _ => false
  | pinf, ninf => false
  | fin _, ninf => false

end JSNum

/-- The divisor `dot00 * dot11 - dot01 * dot01` of the unguarded division
`invDenom = 1 / (dot00 * dot11 - dot01 * dot01)` in the triangle branch of
`isPointInShape` (`Canvas.tsx`).  The vertices are apex `(x + w/2, y)` and
base corners `(x, y + h)`, `(x + w, y + h)`. -/
def triangleDenom (shape : Shape) : ℚ :=
  let x1 := shape.x + shape.width / 2
  let y1 := shape.y
  let x2 := shape.x
  let y2 := shape.y + shape.height
  let x3 := shape.x + shape.width
  let y3 := shape.y + shape.height
  let v0x := x3 - x1
  let v0y := y3 - y1
  let v1x := x2 - x1
  let v1y := y2 - y1
  let dot00 := v0x * v0x + v0y * v0y
  let dot01 := v0x * v1x + v0y * v1y
  let dot11 := v1x * v1x + v1y * v1y
  dot00 * dot11 - dot01 * dot01

/-- The three triangle vertices constructed by `isPointInShape`:
apex `(x + w/2, y)`, base corners `(x, y + h)` and `(x + w, y + h)`. -/
def triangleVertices (shape : Shape) : (ℚ × ℚ) × (ℚ × ℚ) × (ℚ × ℚ) :=
  ((shape.x + shape.width / 2, shape.y),
   (shape.x, shape.y + shape.height),
   (shape.x + shape.width, shape.y + shape.height))

/-- The three vertices of the triangle are collinear (the triangle has zero
area): the cross product of the two edge vectors from the apex vanishes. -/
def triangleCollinear (shape : Shape) : Prop :=
  let p1 := (triangleVertices shape).1
  let p2 := (triangleVertices shape).2.1
  let p3 := (triangleVertices shape).2.2
  (p3.1 - p1.1) * (p2.2 - p1.2) - (p3.2 - p1.2) * (p2.1 - p1.1) = 0

instance (shape : Shape) : Decidable (triangleCollinear shape) := by
  unfold triangleCollinear
  infer_instance

/-- Embedding of `isPointInShape(worldX, worldY, shape)` from `Canvas.tsx`: point-in-shape
predicate dispatched on the shape kind.

* text and square: inclusive bounding-box containment;
* circle: the source compares `Math.sqrt(dx^2 + dy^2) <= radius` with
  `radius = Math.min(w, h) / 2`; over exact arithmetic that comparison is
  equivalent to `0 <= radius` together with `dx^2 + dy^2 <= radius^2`, which
  is how it is embedded here;
* triangle: barycentric coordinates `u, v` with the source's unguarded
  division `invDenom = 1 / (dot00 * dot11 - dot01 * dot01)`, embedded over
  `JSNum` to carry the IEEE behaviour when the divisor is zero. -/
def isPointInShape (worldX worldY : ℚ) (shape : Shape) : Bool :=
  match shape.type with
  | .text =>
      decide (shape.x ≤ worldX) && decide (worldX ≤ shape.x + shape.width) &&
      decide (shape.y ≤ worldY) && decide (worldY ≤ shape.y + shape.height)
  | .square =>
      decide (shape.x ≤ worldX) && decide (worldX ≤ shape.x + shape.width) &&
      decide (shape.y ≤ worldY) && decide (worldY ≤ shape.y + shape.height)
  | .circle =>
      let centerX := shape.x + shape.width / 2
      let centerY := shape.y + shape.height / 2
      let radius := min shape.width shape.height / 2
      let distSq := (worldX - centerX) ^ 2 + (worldY - centerY) ^ 2
      decide (0 ≤ radius) && decide (distSq ≤ radius ^ 2)
  | .triangle =>
      let x1 := shape.x + shape.width / 2
      let y1 := shape.y
      let x2 := shape.x
      let y2 := shape.y + shape.height
      let x3 := shape.x + shape.width
      let y3 := shape.y + shape.height
      let v0x := x3 - x1
      let v0y := y3 - y1
      let v1x := x2 - x1
      let v1y := y2 - y1
      let v2x := worldX - x1
      let v2y := worldY - y1
      let dot00 := v0x * v0x + v0y * v0y
      let dot01 := v0x * v1x + v0y * v1y
      let dot02 := v0x * v2x + v0y * v2y
      let dot11 := v1x * v1x + v1y * v1y
      let dot12 := v1x * v2x + v1y * v2y
      let invDenom := JSNum.div (.fin 1) (.fin (triangleDenom shape))
      let u := JSNum.mul (.fin (dot11 * dot02 - dot01 * dot12)) invDenom
      let v := JSNum.mul (.fin (dot00 * dot12 - dot01 * dot02)) invDenom
      JSNum.le (.fin 0) u && JSNum.le (.fin 0) v && JSNum.le (JSNum.add u v) (.fin 1)

/-- The rubber-band selection rectangle of `Canvas.tsx`
(`selectionRect` state): logical coordinates, corners unordered. -/
structure SelRect where
  startX : ℚ
  startY : ℚ
  endX : ℚ
  endY : ℚ
deriving DecidableEq, Repr

/-- Embedding of `isShapeIntersectingRect(shape, rect)` from `Canvas.tsx`: does the shape
intersect the (normalized) selection rectangle?

* text and square: AABB overlap;
* circle: distance from center to closest rectangle point at most the
  radius (embedded via the squared comparison, as in `isPointInShape`);
* triangle: any vertex inside the rectangle, or the rectangle's center
  inside the triangle, or the triangle bounding box overlaps the rectangle
  (the source's deliberate conservative approximation). -/
def isShapeIntersectingRect (shape : Shape) (rect : SelRect) : Bool :=
  let rectLeft := min rect.startX rect.endX
  let rectRight := max rect.startX rect.endX
  let rectTop := min rect.startY rect.endY
  let rectBottom := max rect.startY rect.endY
  match shape.type with
  | .text =>
      !(decide (shape.x + shape.width < rectLeft) || decide (shape.x > rectRight) ||
        decide (shape.y + shape.height < rectTop) || decide (shape.y > rectBottom))
  | .square =>
      !(decide (shape.x + shape.width < rectLeft) || decide (shape.x > rectRight) ||
        decide (shape.y + shape.height < rectTop) || decide (shape.y > rectBottom))
  | .circle =>
      let centerX := shape.x + shape.width / 2
      let centerY := shape.y + shape.height / 2
      let radius := min shape.width shape.height / 2
      let closestX := max rectLeft (min centerX rectRight)
      let closestY := max rectTop (min centerY rectBottom)
      let distanceX := centerX - closestX
      let distanceY := centerY - closestY
      decide (0 ≤ radius) && decide (distanceX ^ 2 + distanceY ^ 2 ≤ radius ^ 2)
  | .triangle =>
      let x1 := shape.x + shape.width / 2
      let y1 := shape.y
      let x2 := shape.x
      let y2 := shape.y + shape.height
      let x3 := shape.x + shape.width
      let y3 := shape.y + shape.height
      let pointInRect := fun (px py : ℚ) =>
        decide (rectLeft ≤ px) && decide (px ≤ rectRight) &&
        decide (rectTop ≤ py) && decide (py ≤ rectBottom)
      if pointInRect x1 y1 || pointInRect x2 y2 || pointInRect x3 y3 then
        true
      else if isPointInShape ((rectLeft + rectRight) / 2) ((rectTop + rectBottom) / 2) shape then
        true
      else
        let shapeLeft := min (min x1 x2) x3
        let shapeRight := max (max x1 x2) x3
        let shapeTop := min (min y1 y2) y3
        let shapeBottom := max (max y1 y2) y3
        !(decide (shapeRight < rectLeft) || decide (shapeLeft > rectRight) ||
          decide (shapeBottom < rectTop) || decide (shapeTop > rectBottom))

/-- The hit-resolution loop of `handleMouseDown` (and of the hover detection
in `handleMouseMove`) in `Canvas.tsx`:
`for (let i = shapes.length - 1; i >= 0; i--)` returning the first shape
containing the point — later list elements are examined first. -/
def findClickedShape (worldX worldY : ℚ) (shapes : List Shape) : Option Shape :=
  match shapes with
  | [] => none
  | s :: rest =>
    match findClickedShape worldX worldY rest with
    | some t => some t
    | none => if isPointInShape worldX worldY s then some s else none

/-- The `CanvasMode` of `Canvas.tsx`: `'pan' | 'select'`. -/
inductive CanvasMode where
  | pan
  | select
deriving DecidableEq, Repr

/-- The React state of the `Canvas` component that the mouse handlers read
and write (each `useState`, plus the `hasMovedRef` ref).  `selectedShapeIds`
is a JS `Set<string>` kept in insertion order; it is embedded as a list
(shape ids are unique by the data model, so list length is set size).
`initialShapesPositions` is a `Map<string, {x, y}>` in insertion order,
embedded as an association list. -/
structure CanvasState where
  viewState : ViewState
  isPanning : Bool
  lastPanPoint : ℚ × ℚ
  selectedShapeId : Option String
  selectedShapeIds : List String
  isDraggingShape : Bool
  isDraggingMultipleShapes : Bool
  dragOffset : ℚ × ℚ
  initialShapesPositions : List (String × ℚ × ℚ)
  dragStartMousePos : Option (ℚ × ℚ)
  isSelecting : Bool
  selectionRect : Option SelRect
  selectionStartPoint : ℚ × ℚ
  isSpacePressed : Bool
  canvasMode : CanvasMode
  isHoveringShape : Bool
  hoveredShapeId : Option String
  hasMoved : Bool
deriving DecidableEq, Repr

/-- A mouse event as consumed by the handlers: window client coordinates and
the button index (0 = left, 1 = middle). -/
structure MouseEvt where
  clientX : ℚ
  clientY : ℚ
  button : Nat
deriving DecidableEq, Repr

/-- The baseline snapshot taken at multi-drag start, in `Canvas.tsx`
`handleMouseDown` and again in `App.tsx` `handleShapesMove`:
`shapes.forEach(shape => { if (ids contains shape.id) store (shape.x, shape.y) })`. -/
def capturePositions (shapes : List Shape) (ids : List String) : List (String × ℚ × ℚ) :=
  (shapes.filter (fun sh => ids.contains sh.id)).map (fun sh => (sh.id, sh.x, sh.y))

/-- Lookup in the baseline association list (`Map.get` of the source; keys
are unique, the first matching entry is returned). -/
def lookupPos : List (String × ℚ × ℚ) → String → Option (ℚ × ℚ)
  | [], _ => none
  | p :: rest, id => if p.1 == id then some p.2 else lookupPos rest id

/-- The ids selected by the rubber band: the shapes intersecting the
rectangle, in list order
(`shapes.filter(shape => isShapeIntersectingRect(shape, rect)).map(s => s.id)`). -/
def rubberBandIds (shapes : List Shape) (rect : SelRect) : List String :=
  (shapes.filter (fun sh => isShapeIntersectingRect sh rect)).map (fun sh => sh.id)

/-- Embedding of `handleMouseDown` in `Canvas.tsx`, left- and middle-button transitions.
Arguments: the current shape list, the canvas bounding rectangle's top-left
corner, the event, and the component state.  The `onShapeMove` /
`onShapesMove` callbacks are passed by `App.tsx` and are modelled as present.
The source computes `clickedSelectedShape` from `clickedShape` and then
branches; here the same branch conditions are evaluated after destructuring
`clickedShape`, which is an equivalent arrangement of the if/else chain. -/
def handleMouseDown (shapes : List Shape) (rectLeft rectTop : ℚ) (e : MouseEvt)
    (st : CanvasState) : CanvasState :=
  if e.button = 0 then
    let w := clientToWorld e.clientX e.clientY rectLeft rectTop st.viewState
    let isSelectionMode := decide (st.canvasMode = .select) || st.isSpacePressed
    match findClickedShape w.1 w.2 shapes with
    | some sh =>
      if st.selectedShapeIds.contains sh.id && decide (st.selectedShapeIds.length > 1) then
        -- start a multi-shape drag: record the pointer's logical position and
        -- the baseline positions of every selected shape
        { st with isDraggingMultipleShapes := true
                  dragStartMousePos := some w
                  initialShapesPositions := capturePositions shapes st.selectedShapeIds
                  lastPanPoint := (e.clientX, e.clientY)
                  hasMoved := false }
      else if st.selectedShapeIds.contains sh.id && decide (st.selectedShapeIds.length = 1) then
        -- start a single-shape drag of the already-selected shape
        { st with isDraggingShape := true
                  dragOffset := (w.1 - sh.x, w.2 - sh.y)
                  lastPanPoint := (e.clientX, e.clientY)
                  hasMoved := false }
      else if !isSelectionMode then
        -- select the shape exclusively and start a single-shape drag
        { st with selectedShapeId := some sh.id
                  selectedShapeIds := [sh.id]
                  isDraggingShape := true
                  dragOffset := (w.1 - sh.x, w.2 - sh.y)
                  lastPanPoint := (e.clientX, e.clientY)
                  hasMoved := false }
      else
        -- clicked an unselected shape while in selection mode: falls through
        -- to the empty-canvas branch of the source (which does not clear the
        -- selection in selection mode)
        if isSelectionMode then
          { st with lastPanPoint := (e.clientX, e.clientY)
                    hasMoved := false
                    isSelecting := true
                    selectionStartPoint := w
                    selectionRect := some ⟨w.1, w.2, w.1, w.2⟩ }
        else
          { st with selectedShapeId := none
                    selectedShapeIds := []
                    lastPanPoint := (e.clientX, e.clientY)
                    hasMoved := false
                    isPanning := true }
    | none =>
      if isSelectionMode then
        -- begin a rubber-band selection anchored at the pointer's logical
        -- position (the source recomputes `clientToWorld`, yielding `w` again)
        { st with lastPanPoint := (e.clientX, e.clientY)
                  hasMoved := false
                  isSelecting := true
                  selectionStartPoint := w
                  selectionRect := some ⟨w.1, w.2, w.1, w.2⟩ }
      else
        { st with selectedShapeId := none
                  selectedShapeIds := []
                  lastPanPoint := (e.clientX, e.clientY)
                  hasMoved := false
                  isPanning := true }
  else if e.button = 1 then
    { st with isPanning := true, lastPanPoint := (e.clientX, e.clientY) }
  else
    st

/-- A position-mutation callback emitted to `App.tsx` during a mouse move:
`onShapeMove(id, newX, newY)` or `onShapesMove(ids, deltaX, deltaY)`. -/
inductive MoveEmit where
  | single : String → ℚ → ℚ → MoveEmit
  | multi : List String → ℚ → ℚ → MoveEmit
deriving DecidableEq, Repr

/-- Embedding of `handleMouseMove` in `Canvas.tsx`: hover tracking when no gesture is in
progress, then the per-state update — multi-drag and single-drag emit a
callback and leave the component state untouched, rubber-band updates the
rectangle's moving corner and recomputes the live selection, panning
translates the view by the screen delta since the previous event.  All
branch conditions read the pre-event state (React state updates are
deferred), which the hover update respects since later branches never read
the hover fields. -/
def handleMouseMove (shapes : List Shape) (rectLeft rectTop : ℚ) (e : MouseEvt)
    (st : CanvasState) : CanvasState × Option MoveEmit :=
  let w := clientToWorld e.clientX e.clientY rectLeft rectTop st.viewState
  let st0 :=
    if !st.isDraggingShape && !st.isDraggingMultipleShapes && !st.isPanning && !st.isSelecting then
      let hovered := findClickedShape w.1 w.2 shapes
      { st with isHoveringShape := hovered.isSome
                hoveredShapeId := hovered.map (fun sh => sh.id) }
    else st
  if st.isDraggingMultipleShapes && decide (st.selectedShapeIds.length > 0) &&
      decide (st.initialShapesPositions.length > 0) && st.dragStartMousePos.isSome then
    match st.dragStartMousePos with
    | some start => (st0, some (.multi st.selectedShapeIds (w.1 - start.1) (w.2 - start.2)))
    | none => (st0, none)
  else if st.isDraggingShape && st.selectedShapeId.isSome then
    match st.selectedShapeId with
    | some sid => (st0, some (.single sid (w.1 - st.dragOffset.1) (w.2 - st.dragOffset.2)))
    | none => (st0, none)
  else if st.isSelecting then
    let newRect : SelRect := ⟨st.selectionStartPoint.1, st.selectionStartPoint.2, w.1, w.2⟩
    ({ st0 with selectionRect := some newRect
                selectedShapeIds := rubberBandIds shapes newRect }, none)
  else if st.isPanning then
    ({ st0 with viewState := { st0.viewState with
                                 x := st0.viewState.x + (e.clientX - st.lastPanPoint.1)
                                 y := st0.viewState.y + (e.clientY - st.lastPanPoint.2) }
                lastPanPoint := (e.clientX, e.clientY)
                hasMoved := true }, none)
  else
    (st0, none)

/-- Embedding of `handleMouseUp` in `Canvas.tsx`.  The handler takes no event argument at
all — it behaves identically wherever the pointer is released.  If a
rubber-band selection is in progress it commits the selection computed from
the final rectangle and discards the rectangle; in every case it then resets
the panning and dragging flags and discards the drag baseline. -/
def handleMouseUp (shapes : List Shape) (st : CanvasState) : CanvasState :=
  let st1 :=
    if st.isSelecting && st.selectionRect.isSome then
      match st.selectionRect with
      | some r =>
        let finalRect : SelRect := ⟨st.selectionStartPoint.1, st.selectionStartPoint.2,
                                    r.endX, r.endY⟩
        let selectedIds := rubberBandIds shapes finalRect
        { st with isSelecting := false
                  selectedShapeIds := selectedIds
                  selectedShapeId := if selectedIds.length = 1 then selectedIds.head? else none
                  selectionRect := none }
      | none => st
    else st
  { st1 with isPanning := false
             isDraggingShape := false
             isDraggingMultipleShapes := false
             dragOffset := (0, 0)
             initialShapesPositions := []
             dragStartMousePos := none
             hasMoved := false }

/-- The state owned by `App.tsx` that the move callbacks act on: the shape
list and `initialShapesPositionsRef`, the drag-baseline map the component
keeps across `handleShapesMove` calls. -/
structure AppDragState where
  shapes : List Shape
  initialPositions : List (String × ℚ × ℚ)
deriving DecidableEq, Repr

/-- The per-shape update applied by `handleShapesMove` in `App.tsx`: a shape
whose id is in `shapeIds` is moved to its baseline position plus the delta
(or, if it has no baseline entry, simply shifted by the delta); every other
shape is untouched. -/
def applyShapesDelta (shapeIds : List String) (deltaX deltaY : ℚ)
    (ref : List (String × ℚ × ℚ)) (shapes : List Shape) : List Shape :=
  shapes.map (fun sh =>
    if shapeIds.contains sh.id then
      match lookupPos ref sh.id with
      | some p => { sh with x := p.1 + deltaX, y := p.2 + deltaY }
      | none => { sh with x := sh.x + deltaX, y := sh.y + deltaY }
    else sh)

/-- Embedding of `handleShapesMove(shapeIds, deltaX, deltaY)` in `App.tsx`: if the drag
looks like it is just starting (`|deltaX| < 0.1 && |deltaY| < 0.1`, or the
baseline ref is empty), re-capture the baseline from the current shape
positions; then move every addressed shape to baseline plus delta. -/
def handleShapesMove (shapeIds : List String) (deltaX deltaY : ℚ)
    (st : AppDragState) : AppDragState :=
  let ref :=
    if (decide (|deltaX| < 1/10) && decide (|deltaY| < 1/10)) ||
        decide (st.initialPositions.length = 0) then
      capturePositions st.shapes shapeIds
    else
      st.initialPositions
  { shapes := applyShapesDelta shapeIds deltaX deltaY ref st.shapes
    initialPositions := ref }

/-- Embedding of `handleShapeMove(shapeId, newX, newY)` in `App.tsx`: clear the baseline
ref, then set the absolute position of the one addressed shape, leaving every
other entry unchanged. -/
def handleShapeMove (shapeId : String) (newX newY : ℚ) (st : AppDragState) : AppDragState :=
  { shapes := st.shapes.map (fun sh =>
      if sh.id == shapeId then { sh with x := newX, y := newY } else sh)
    initialPositions := [] }

/-- A whole multi-drag: the `handleShapesMove` updates for a sequence of
total pointer deltas, applied in order (`Canvas.tsx` `handleMouseMove` emits
one `onShapesMove(ids, delta)` per move event, with `delta` measured from
`dragStartMousePos`, the pointer's logical position at drag start). -/
def runShapesMoves (shapeIds : List String) (deltas : List (ℚ × ℚ))
    (st : AppDragState) : AppDragState :=
  deltas.foldl (fun s d => handleShapesMove shapeIds d.1 d.2 s) st

/-- The initial component state of `Canvas.tsx`: each `useState` initializer
(view at origin with zoom 1, no gesture in progress, nothing selected,
persistent mode `pan`). -/
def initialCanvasState : CanvasState :=
  { viewState := ⟨0, 0, 1⟩
    isPanning := false
    lastPanPoint := (0, 0)
    selectedShapeId := none
    selectedShapeIds := []
    isDraggingShape := false
    isDraggingMultipleShapes := false
    dragOffset := (0, 0)
    initialShapesPositions := []
    dragStartMousePos := none
    isSelecting := false
    selectionRect := none
    selectionStartPoint := (0, 0)
    isSpacePressed := false
    canvasMode := .pan
    isHoveringShape := false
    hoveredShapeId := none
    hasMoved := false }

/-- Reachability invariant of the component state: a selection rectangle
exists exactly while a rubber-band gesture is in progress.  It holds
initially and is preserved by every mouse handler (lemmas below). -/
def selectCoupled (st : CanvasState) : Prop :=
  st.isSelecting = true ↔ st.selectionRect ≠ none

end Octobase

namespace Octobase

/-- Claim C1: for every view state `v` with `zoom > 0` and every screen pivot
`p`, the wheel/pinch zoom update `zoomAt` produces a view state under which
the logical point at the pivot is unchanged:
`toLogical(p, zoomAt(v, p, f)) = toLogical(p, v)`, including when the new
zoom is clamped to `[0.1, 5.0]`. -/
theorem zoomAt_preserves_pivot (v : ViewState) (px py f : ℚ) (_hz : 0 < v.zoom) :
    screenToWorld px py (zoomAt v px py f) = screenToWorld px py v := by
  have hZ : (0 : ℚ) < max (1/10) (min 5 (v.zoom * f)) :=
    lt_of_lt_of_le (by norm_num) (le_max_left _ _)
  unfold zoomAt screenToWorld
  dsimp only
  have h2 : ∀ a b : ℚ,
      (a - (a - (a - b) / v.zoom * max (1/10) (min 5 (v.zoom * f)))) /
          max (1/10) (min 5 (v.zoom * f)) = (a - b) / v.zoom := by
    intro a b
    rw [sub_sub_cancel, mul_div_cancel_right₀ _ hZ.ne']
  exact Prod.ext (h2 px v.x) (h2 py v.y)

/-- Witness for C1 at the concrete view state `(0, 0, zoom 1)`, pivot
`(3, 4)` and factor `2`. -/
theorem zoomAt_preserves_pivot_witness :
    0 < (ViewState.mk 0 0 1).zoom ∧
      screenToWorld 3 4 (zoomAt ⟨0, 0, 1⟩ 3 4 2) = screenToWorld 3 4 ⟨0, 0, 1⟩ :=
  ⟨by norm_num, zoomAt_preserves_pivot ⟨0, 0, 1⟩ 3 4 2 (by norm_num)⟩

/-- Counterexample to claim C3: the imperative `setViewState` command does
not clamp — requesting zoom 10 yields a reachable view state with zoom
10 ∉ [0.1, 5]. -/
theorem setViewStateCmd_does_not_clamp :
    (setViewStateCmd ⟨0, 0, 10⟩).zoom = 10 ∧ ¬(setViewStateCmd ⟨0, 0, 10⟩).zoom ≤ 5 := by
  constructor <;> norm_num [setViewStateCmd]

/-- Amended claim C3: the wheel/pinch zoom update keeps zoom within
`[0.1, 5.0]` (out-of-range results are clamped), but the imperative
`setViewState` command stores the requested view state unchanged, so the
range is not an invariant of every reachable view state. -/
theorem zoomAt_clamps_setViewStateCmd_does_not (v : ViewState) (px py f : ℚ)
    (req : ViewState) :
    (1/10 ≤ (zoomAt v px py f).zoom ∧ (zoomAt v px py f).zoom ≤ 5) ∧
      setViewStateCmd req = req := by
  refine ⟨⟨le_max_left _ _, ?_⟩, rfl⟩
  exact max_le (by norm_num) (min_le_left _ _)

/-- Claim C7: fit-to-content on an empty shape list centers logical `(0,0)`
at the viewport center with zoom 1: `offset = (w/2, h/2)`, `zoom = 1`. -/
theorem fitToView_empty_centers_origin (w h : ℚ) :
    fitToView [] w h = ⟨w / 2, h / 2, 1⟩ :=
  rfl

/-- Claim C10: for a non-empty shape list the fit-to-content zoom is
`min(viewportWidth / boundsWidth, viewportHeight / boundsHeight, 2)`, hence
at most 2 even though the general zoom range admits up to 5. -/
theorem fitToView_zoom_caps_at_two (s : Shape) (rest : List Shape) (w h : ℚ) :
    (fitToView (s :: rest) w h).zoom
        = min (min (w / (boundsMaxX s rest - boundsMinX s rest))
                   (h / (boundsMaxY s rest - boundsMinY s rest))) 2
      ∧ (fitToView (s :: rest) w h).zoom ≤ 2 := by
  constructor
  · rfl
  · exact min_le_right _ _

/-- Claim C8: hit resolution iterates the shapes in reverse of their list
order and returns the first shape containing the point, or none; in
particular, whenever several shapes contain the point the one occurring
latest in the list is returned. -/
theorem findClickedShape_topmost (wx wy : ℚ) (shapes : List Shape) :
    findClickedShape wx wy shapes = shapes.reverse.find? (isPointInShape wx wy)
      ∧ ∀ pre s post, shapes = pre ++ s :: post → isPointInShape wx wy s = true →
          (∀ t ∈ post, isPointInShape wx wy t = false) →
          findClickedShape wx wy shapes = some s := by
  have hrev : ∀ l : List Shape,
      findClickedShape wx wy l = l.reverse.find? (isPointInShape wx wy) := by
    intro l
    induction l with
    | nil => rfl
    | cons s rest ih =>
      rw [List.reverse_cons, List.find?_append]
      unfold findClickedShape
      rw [ih]
      cases rest.reverse.find? (isPointInShape wx wy) with
      | none =>
        simp only [Option.none_or]
        by_cases h : isPointInShape wx wy s
        · rw [List.find?_cons_of_pos _ h]
          simp [h]
        · rw [List.find?_cons_of_neg _ h]
          simp [h]
      | some t => rfl
  refine ⟨hrev shapes, ?_⟩
  intro pre s post hsplit hs hpost
  rw [hrev shapes, hsplit, List.reverse_append, List.reverse_cons, List.find?_append,
    List.find?_append]
  have hnone : post.reverse.find? (isPointInShape wx wy) = none := by
    rw [List.find?_eq_none]
    intro t ht
    simp only [List.mem_reverse] at ht
    simp [hpost t ht]
  rw [hnone, List.find?_cons_of_pos _ hs]
  rfl

/-- Witness for C8: two overlapping unit squares; the later one in the list
is the hit. -/
theorem findClickedShape_topmost_witness :
    findClickedShape 1 1
        [⟨"a", .square, 0, 0, 2, 2, "", none⟩, ⟨"b", .square, 0, 0, 2, 2, "", none⟩]
      = some ⟨"b", .square, 0, 0, 2, 2, "", none⟩ :=
  (findClickedShape_topmost 1 1 _).2 [⟨"a", .square, 0, 0, 2, 2, "", none⟩]
    ⟨"b", .square, 0, 0, 2, 2, "", none⟩ [] rfl (by norm_num [isPointInShape]) (by simp)

end Octobase

namespace Octobase

/-- Core of the degenerate-triangle analysis: once the barycentric divisor is
zero, `invDenom` is an infinity, each barycentric coordinate is an infinity
or NaN, and the conjunction `u >= 0 && v >= 0 && u + v <= 1` is false for
every choice of numerators. -/
theorem triangleTest_denomZero_false (nu nv : ℚ) :
    (JSNum.le (.fin 0) (JSNum.mul (.fin nu) (JSNum.div (.fin 1) (.fin 0))) &&
     JSNum.le (.fin 0) (JSNum.mul (.fin nv) (JSNum.div (.fin 1) (.fin 0))) &&
     JSNum.le (JSNum.add (JSNum.mul (.fin nu) (JSNum.div (.fin 1) (.fin 0)))
                         (JSNum.mul (.fin nv) (JSNum.div (.fin 1) (.fin 0)))) (.fin 1)) = false := by
  have hdiv : JSNum.div (.fin 1) (.fin 0) = .pinf := by norm_num [JSNum.div]
  rw [hdiv]
  rcases lt_trichotomy nu 0 with h1 | h1 | h1
  · simp [JSNum.mul, JSNum.le, h1.ne, h1.asymm]
  · simp [JSNum.mul, JSNum.le, h1]
  · rcases lt_trichotomy nv 0 with h2 | h2 | h2
    · simp [JSNum.mul, JSNum.le, JSNum.add, h1.ne', h1, h2.ne, h2.asymm]
    · simp [JSNum.mul, JSNum.le, JSNum.add, h1.ne', h1, h2]
    · simp [JSNum.mul, JSNum.le, JSNum.add, h1.ne', h1, h2.ne', h2]

/-- Amended claim C4: for every triangle shape whose three vertices are
collinear (zero-area triangle) the point-in-shape predicate returns false for
every query point.  (The source performs the division by the — then zero —
barycentric denominator without a guard; the IEEE special values it produces
make every comparison of the final conjunction fail.) -/
theorem isPointInShape_collinear_triangle_no_hit (shape : Shape)
    (ht : shape.type = .triangle) (hc : triangleCollinear shape) (wx wy : ℚ) :
    isPointInShape wx wy shape = false := by
  rcases shape with ⟨sid, sty, sx, sy, sw, shh, sc, sct⟩
  cases ht
  have hwh : sw * shh = 0 := by
    have h0 := hc
    unfold triangleCollinear triangleVertices at h0
    dsimp only at h0
    linear_combination h0
  have hd : triangleDenom ⟨sid, .triangle, sx, sy, sw, shh, sc, sct⟩ = 0 := by
    unfold triangleDenom
    dsimp only
    linear_combination (sw * shh) * hwh
  unfold isPointInShape
  dsimp only
  rw [hd]
  exact triangleTest_denomZero_false _ _

/-- Witness for the amended claim C4 at a width-0 triangle and the query
point (5, 5). -/
theorem isPointInShape_collinear_triangle_no_hit_witness :
    (Shape.mk "t" .triangle 0 0 0 100 "" none).type = .triangle ∧
      triangleCollinear (Shape.mk "t" .triangle 0 0 0 100 "" none) ∧
      isPointInShape 5 5 (Shape.mk "t" .triangle 0 0 0 100 "" none) = false :=
  ⟨rfl, by norm_num [triangleCollinear, triangleVertices],
    isPointInShape_collinear_triangle_no_hit _ rfl
      (by norm_num [triangleCollinear, triangleVertices]) 5 5⟩

/-- Counterexample to claim C4 as stated: the barycentric computation of
`isPointInShape` DOES divide by a value that is zero, without a guard — for
the collinear (zero-area) triangle below, the divisor
`dot00 * dot11 - dot01 * dot01` of the unguarded division
`invDenom = 1 / (dot00 * dot11 - dot01 * dot01)` evaluates to zero (the
division is performed unconditionally in the triangle branch). -/
theorem triangleDenom_zero_without_guard :
    triangleCollinear (Shape.mk "t" .triangle 0 0 100 0 "" none) ∧
      triangleDenom (Shape.mk "t" .triangle 0 0 100 0 "" none) = 0 := by
  constructor
  · norm_num [triangleCollinear, triangleVertices]
  · norm_num [triangleDenom]

end Octobase

namespace Octobase

/-- Counterexample to claim C5: a primary-button press over empty canvas in
Select mode with a non-empty selection set enters rubber-band selecting but
does NOT clear the selection set — the source clears the selection only when
NOT in selection mode, so the previous selection `["a"]` survives the press
(the claim requires it to become empty). -/
theorem handleMouseDown_select_does_not_clear_selection :
    (handleMouseDown [] 0 0 ⟨3, 4, 0⟩
        { initialCanvasState with canvasMode := .select, selectedShapeIds := ["a"] }).isSelecting
        = true ∧
      (handleMouseDown [] 0 0 ⟨3, 4, 0⟩
        { initialCanvasState with canvasMode := .select, selectedShapeIds := ["a"] }).selectedShapeIds
        = ["a"] := by
  constructor <;>
    norm_num [handleMouseDown, initialCanvasState, findClickedShape, clientToWorld, screenToWorld]

/-- Amended claim C5: on primary-button press over empty canvas while the
mode is Select (persistent toggle or held Space), the machine enters
rubber-band selecting anchored at the current logical pointer position; the
selection set is left unchanged at press time (it is recomputed from the
rectangle on subsequent move events), not cleared. -/
theorem handleMouseDown_select_empty_canvas (shapes : List Shape) (rectLeft rectTop : ℚ)
    (e : MouseEvt) (st : CanvasState) (w : ℚ × ℚ)
    (hw : w = clientToWorld e.clientX e.clientY rectLeft rectTop st.viewState)
    (hb : e.button = 0)
    (hmode : st.canvasMode = .select ∨ st.isSpacePressed = true)
    (hmiss : findClickedShape w.1 w.2 shapes = none) :
    (handleMouseDown shapes rectLeft rectTop e st).isSelecting = true ∧
      (handleMouseDown shapes rectLeft rectTop e st).selectionStartPoint = w ∧
      (handleMouseDown shapes rectLeft rectTop e st).selectionRect
          = some ⟨w.1, w.2, w.1, w.2⟩ ∧
      (handleMouseDown shapes rectLeft rectTop e st).selectedShapeIds = st.selectedShapeIds ∧
      (handleMouseDown shapes rectLeft rectTop e st).selectedShapeId = st.selectedShapeId ∧
      (handleMouseDown shapes rectLeft rectTop e st).viewState = st.viewState := by
  subst hw
  have hsel : (decide (st.canvasMode = .select) || st.isSpacePressed) = true := by
    rcases hmode with hm | hm <;> simp [hm]
  unfold handleMouseDown
  rw [if_pos hb]
  dsimp only
  rw [hmiss, hsel]
  simp

/-- Witness for the amended claim C5: held Space over empty canvas with a
previous selection of `["a"]`. -/
theorem handleMouseDown_select_empty_canvas_witness :
    (MouseEvt.mk 3 4 0).button = 0 ∧
      (({ initialCanvasState with isSpacePressed := true, selectedShapeIds := ["a"] }
          : CanvasState).canvasMode = CanvasMode.select ∨
        ({ initialCanvasState with isSpacePressed := true, selectedShapeIds := ["a"] }
          : CanvasState).isSpacePressed = true) ∧
      (handleMouseDown [] 0 0 ⟨3, 4, 0⟩
          { initialCanvasState with isSpacePressed := true, selectedShapeIds := ["a"] }).isSelecting
          = true ∧
      (handleMouseDown [] 0 0 ⟨3, 4, 0⟩
          { initialCanvasState with isSpacePressed := true, selectedShapeIds := ["a"] }).selectionStartPoint
          = (3, 4) ∧
      (handleMouseDown [] 0 0 ⟨3, 4, 0⟩
          { initialCanvasState with isSpacePressed := true, selectedShapeIds := ["a"] }).selectedShapeIds
          = ["a"] := by
  have h := handleMouseDown_select_empty_canvas [] 0 0 ⟨3, 4, 0⟩
    { initialCanvasState with isSpacePressed := true, selectedShapeIds := ["a"] } (3, 4)
    (by norm_num [clientToWorld, screenToWorld, initialCanvasState]) rfl (Or.inr rfl) rfl
  exact ⟨rfl, Or.inr rfl, h.1, h.2.1, h.2.2.2.1⟩

end Octobase

namespace Octobase

theorem selectCoupled_initial : selectCoupled initialCanvasState := by
  simp [selectCoupled, initialCanvasState]

theorem selectCoupled_handleMouseDown (shapes : List Shape) (rectLeft rectTop : ℚ)
    (e : MouseEvt) (st : CanvasState) (h : selectCoupled st) :
    selectCoupled (handleMouseDown shapes rectLeft rectTop e st) := by
  unfold selectCoupled at h ⊢
  unfold handleMouseDown
  split
  · dsimp only
    split
    · split
      · simpa using h
      · split
        · simpa using h
        · split
          · simpa using h
          · split
            · simp
            · simpa using h
    · split
      · simp
      · simpa using h
  · split <;> simpa using h

theorem selectCoupled_handleMouseMove (shapes : List Shape) (rectLeft rectTop : ℚ)
    (e : MouseEvt) (st : CanvasState) (h : selectCoupled st) :
    selectCoupled (handleMouseMove shapes rectLeft rectTop e st).1 := by
  unfold selectCoupled at h ⊢
  unfold handleMouseMove
  dsimp only
  split
  · split <;> simp_all
  · split
    · split <;> simp_all
    · split
      · simp_all
      · split <;> split <;> simp_all

theorem selectCoupled_handleMouseUp (shapes : List Shape) (st : CanvasState)
    (h : selectCoupled st) :
    selectCoupled (handleMouseUp shapes st) := by
  unfold selectCoupled at h ⊢
  unfold handleMouseUp
  split
  · split <;> simp_all
  · simp_all

end Octobase

namespace Octobase

/-- Claim C6: on pointer release from any state satisfying the reachability
invariant `selectCoupled`, every panning / dragging-single /
dragging-multiple / rubber-band flag is reset and the drag baseline, drag
offset, drag-start pointer position and selection rectangle are cleared, so
the machine returns to Idle — `handleMouseUp` takes no pointer position at
all, so this holds regardless of where the pointer ends up.  The view state
is untouched; the selection set survives unchanged when no rubber band was
active, and is the rubber-band-computed set of the final rectangle
otherwise. -/
theorem handleMouseUp_returns_to_idle (shapes : List Shape) (st : CanvasState)
    (hinv : selectCoupled st) :
    (handleMouseUp shapes st).isPanning = false ∧
      (handleMouseUp shapes st).isDraggingShape = false ∧
      (handleMouseUp shapes st).isDraggingMultipleShapes = false ∧
      (handleMouseUp shapes st).isSelecting = false ∧
      (handleMouseUp shapes st).dragOffset = (0, 0) ∧
      (handleMouseUp shapes st).initialShapesPositions = [] ∧
      (handleMouseUp shapes st).dragStartMousePos = none ∧
      (handleMouseUp shapes st).selectionRect = none ∧
      (handleMouseUp shapes st).viewState = st.viewState ∧
      (st.isSelecting = false →
        (handleMouseUp shapes st).selectedShapeIds = st.selectedShapeIds ∧
          (handleMouseUp shapes st).selectedShapeId = st.selectedShapeId) ∧
      (∀ r, st.selectionRect = some r →
        (handleMouseUp shapes st).selectedShapeIds
          = rubberBandIds shapes
              ⟨st.selectionStartPoint.1, st.selectionStartPoint.2, r.endX, r.endY⟩) := by
  unfold selectCoupled at hinv
  cases hrect : st.selectionRect with
  | none =>
    have hs : st.isSelecting = false := by
      rcases Bool.eq_false_or_eq_true st.isSelecting with h | h
      · exact absurd hrect (hinv.mp h)
      · exact h
    unfold handleMouseUp
    rw [hrect, hs]
    exact ⟨rfl, rfl, rfl, hs, rfl, rfl, rfl, hrect, rfl, fun _ => ⟨rfl, rfl⟩,
      fun r hr => Option.noConfusion hr⟩
  | some r0 =>
    have hs : st.isSelecting = true := hinv.mpr (by simp [hrect])
    unfold handleMouseUp
    rw [hrect, hs]
    exact ⟨rfl, rfl, rfl, rfl, rfl, rfl, rfl, rfl, rfl,
      fun h => absurd h (by simp), fun r hr => by cases hr; rfl⟩

/-- Witness for claim C6: releasing from a simultaneously panning, dragging
and rubber-band-selecting state clears every gesture flag, the baseline and
the rectangle. -/
theorem handleMouseUp_returns_to_idle_witness :
    selectCoupled { initialCanvasState with
                      isPanning := true, isDraggingShape := true,
                      isDraggingMultipleShapes := true, isSelecting := true,
                      selectionRect := some ⟨0, 0, 6, 6⟩, dragOffset := (2, 3),
                      initialShapesPositions := [("a", 0, 0)],
                      dragStartMousePos := some (1, 1) } ∧
      (handleMouseUp [] { initialCanvasState with
                      isPanning := true, isDraggingShape := true,
                      isDraggingMultipleShapes := true, isSelecting := true,
                      selectionRect := some ⟨0, 0, 6, 6⟩, dragOffset := (2, 3),
                      initialShapesPositions := [("a", 0, 0)],
                      dragStartMousePos := some (1, 1) }).isSelecting = false ∧
      (handleMouseUp [] { initialCanvasState with
                      isPanning := true, isDraggingShape := true,
                      isDraggingMultipleShapes := true, isSelecting := true,
                      selectionRect := some ⟨0, 0, 6, 6⟩, dragOffset := (2, 3),
                      initialShapesPositions := [("a", 0, 0)],
                      dragStartMousePos := some (1, 1) }).selectionRect = none ∧
      (handleMouseUp [] { initialCanvasState with
                      isPanning := true, isDraggingShape := true,
                      isDraggingMultipleShapes := true, isSelecting := true,
                      selectionRect := some ⟨0, 0, 6, 6⟩, dragOffset := (2, 3),
                      initialShapesPositions := [("a", 0, 0)],
                      dragStartMousePos := some (1, 1) }).initialShapesPositions = [] ∧
      (handleMouseUp [] { initialCanvasState with
                      isPanning := true, isDraggingShape := true,
                      isDraggingMultipleShapes := true, isSelecting := true,
                      selectionRect := some ⟨0, 0, 6, 6⟩, dragOffset := (2, 3),
                      initialShapesPositions := [("a", 0, 0)],
                      dragStartMousePos := some (1, 1) }).isPanning = false := by
  have hc : selectCoupled { initialCanvasState with
                      isPanning := true, isDraggingShape := true,
                      isDraggingMultipleShapes := true, isSelecting := true,
                      selectionRect := some ⟨0, 0, 6, 6⟩, dragOffset := (2, 3),
                      initialShapesPositions := [("a", 0, 0)],
                      dragStartMousePos := some (1, 1) } := by
    simp [selectCoupled, initialCanvasState]
  have h := handleMouseUp_returns_to_idle [] _ hc
  exact ⟨hc, h.2.2.2.1, h.2.2.2.2.2.2.2.1, h.2.2.2.2.2.1, h.1⟩

end Octobase

namespace Octobase

/-- Lemma: `applyShapesDelta` never creates or deletes entries and never changes an
id: the id sequence of the shape list is preserved. -/
theorem applyShapesDelta_map_id (ids : List String) (dx dy : ℚ)
    (ref : List (String × ℚ × ℚ)) (shapes : List Shape) :
    (applyShapesDelta ids dx dy ref shapes).map Shape.id = shapes.map Shape.id := by
  unfold applyShapesDelta
  rw [List.map_map]
  refine List.map_congr_left ?_
  intro sh hsh
  simp only [Function.comp_apply]
  split
  · split <;> rfl
  · rfl

/-- If the baseline capture over a shape list is empty, no shape of the list
is addressed, and the per-shape update is the identity whatever the ref. -/
theorem applyShapesDelta_of_capture_nil (shapes : List Shape) (ids : List String)
    (h : capturePositions shapes ids = []) (dx dy : ℚ)
    (ref : List (String × ℚ × ℚ)) :
    applyShapesDelta ids dx dy ref shapes = shapes := by
  have hfil : shapes.filter (fun sh => ids.contains sh.id) = [] := by
    unfold capturePositions at h
    exact List.map_eq_nil_iff.mp h
  have hall : ∀ sh ∈ shapes, ids.contains sh.id = false := by
    intro sh hsh
    have := List.filter_eq_nil_iff.mp hfil sh hsh
    simpa using this
  unfold applyShapesDelta
  calc shapes.map _ = shapes.map id := List.map_congr_left fun sh hsh => by
        have hno : ¬ ids.contains sh.id = true := by
          rw [hall sh hsh]
          exact Bool.false_ne_true
        simp only [id_eq]
        rw [if_neg hno]
    _ = shapes := List.map_id shapes

/-- Every addressed shape of the captured list has a baseline entry. -/
theorem lookupPos_capture_isSome (shapes : List Shape) (ids : List String) (i : String)
    (hmem : i ∈ shapes.map Shape.id) (hc : ids.contains i = true) :
    (lookupPos (capturePositions shapes ids) i).isSome = true := by
  induction shapes with
  | nil => simp at hmem
  | cons sh rest ih =>
    rw [List.map_cons, List.mem_cons] at hmem
    unfold capturePositions
    rw [List.filter_cons]
    by_cases hsh : ids.contains sh.id
    · rw [if_pos hsh, List.map_cons]
      unfold lookupPos
      by_cases hie : sh.id == i
      · rw [if_pos hie]
        rfl
      · rw [if_neg hie]
        rcases hmem with hmem | hmem
        · exact absurd (by simp [hmem]) hie
        · exact ih hmem
    · rw [if_neg hsh]
      rcases hmem with hmem | hmem
      · subst hmem
        exact absurd hc (by simpa using hsh)
      · exact ih hmem

/-- The baseline-relative update is absolute: applying it twice with two
deltas is the same as applying it once with the second delta, provided every
addressed shape has a baseline entry. -/
theorem applyShapesDelta_applyShapesDelta (ids : List String) (dx dy ex ey : ℚ)
    (ref : List (String × ℚ × ℚ)) (shapes : List Shape)
    (hlookup : ∀ sh ∈ shapes, ids.contains sh.id = true →
      (lookupPos ref sh.id).isSome = true) :
    applyShapesDelta ids dx dy ref (applyShapesDelta ids ex ey ref shapes)
      = applyShapesDelta ids dx dy ref shapes := by
  unfold applyShapesDelta
  rw [List.map_map]
  refine List.map_congr_left ?_
  intro sh hsh
  simp only [Function.comp_apply]
  by_cases h : ids.contains sh.id
  · cases hlk : lookupPos ref sh.id with
    | none =>
      have hs := hlookup sh hsh h
      rw [hlk] at hs
      simp at hs
    | some p =>
      rw [if_pos h, hlk]
      dsimp only
      have hmem : sh.id ∈ ids := by simpa using h
      simp [hmem]
  · rw [if_neg h, if_neg h]

end Octobase

namespace Octobase

/-- From the freshly captured baseline, one `handleShapesMove` update keeps
the baseline and moves the addressed shapes by the delta, whatever the
delta (a tiny delta merely re-captures the same baseline). -/
theorem handleShapesMove_from_baseline (shapes0 : List Shape) (ids : List String)
    (dx dy : ℚ) :
    handleShapesMove ids dx dy ⟨shapes0, capturePositions shapes0 ids⟩
      = ⟨applyShapesDelta ids dx dy (capturePositions shapes0 ids) shapes0,
         capturePositions shapes0 ids⟩ := by
  unfold handleShapesMove
  dsimp only
  split <;> rfl

/-- After a first update from the baseline, any further non-tiny update
overwrites it: the result only depends on the latest delta. -/
theorem handleShapesMove_step (shapes0 : List Shape) (ids : List String) (d e : ℚ × ℚ)
    (hd : ¬(|d.1| < 1/10 ∧ |d.2| < 1/10)) :
    handleShapesMove ids d.1 d.2
        ⟨applyShapesDelta ids e.1 e.2 (capturePositions shapes0 ids) shapes0,
         capturePositions shapes0 ids⟩
      = ⟨applyShapesDelta ids d.1 d.2 (capturePositions shapes0 ids) shapes0,
         capturePositions shapes0 ids⟩ := by
  have htiny : (decide (|d.1| < 1/10) && decide (|d.2| < 1/10)) = false := by
    rcases not_and_or.mp hd with h | h
    · rw [decide_eq_false h, Bool.false_and]
    · rw [decide_eq_false h, Bool.and_false]
  by_cases h0 : capturePositions shapes0 ids = []
  · rw [h0, applyShapesDelta_of_capture_nil shapes0 ids h0 e.1 e.2,
      applyShapesDelta_of_capture_nil shapes0 ids h0 d.1 d.2]
    unfold handleShapesMove
    dsimp only
    rw [if_pos]
    · rw [h0, applyShapesDelta_of_capture_nil shapes0 ids h0 d.1 d.2]
    · simp
  · unfold handleShapesMove
    dsimp only
    rw [htiny]
    have hlen : decide ((capturePositions shapes0 ids).length = 0) = false := by
      simp [List.length_eq_zero, h0]
    rw [hlen]
    rw [if_neg (by simp)]
    rw [applyShapesDelta_applyShapesDelta]
    intro sh hsh hc
    have hmem : sh.id ∈ shapes0.map Shape.id := List.mem_map_of_mem Shape.id hsh
    exact lookupPos_capture_isSome shapes0 ids sh.id hmem hc

end Octobase

namespace Octobase

/-- Folding the remaining updates from a state already holding the baseline
and one applied delta yields the state of the last delta alone (every listed
delta being non-tiny). -/
theorem runShapesMoves_applied_aux (shapes0 : List Shape) (ids : List String)
    (rest : List (ℚ × ℚ)) (e : ℚ × ℚ)
    (hnt : ∀ p ∈ rest, ¬(|p.1| < 1/10 ∧ |p.2| < 1/10)) :
    runShapesMoves ids rest
        ⟨applyShapesDelta ids e.1 e.2 (capturePositions shapes0 ids) shapes0,
         capturePositions shapes0 ids⟩
      = ⟨applyShapesDelta ids (rest.getLastD e).1 (rest.getLastD e).2
            (capturePositions shapes0 ids) shapes0,
         capturePositions shapes0 ids⟩ := by
  induction rest generalizing e with
  | nil => rfl
  | cons d ds ih =>
    have hstep := handleShapesMove_step shapes0 ids d e (hnt d (List.mem_cons_self d ds))
    calc runShapesMoves ids (d :: ds)
          ⟨applyShapesDelta ids e.1 e.2 (capturePositions shapes0 ids) shapes0,
           capturePositions shapes0 ids⟩
        = runShapesMoves ids ds
            (handleShapesMove ids d.1 d.2
              ⟨applyShapesDelta ids e.1 e.2 (capturePositions shapes0 ids) shapes0,
               capturePositions shapes0 ids⟩) := rfl
      _ = runShapesMoves ids ds
            ⟨applyShapesDelta ids d.1 d.2 (capturePositions shapes0 ids) shapes0,
             capturePositions shapes0 ids⟩ := by rw [hstep]
      _ = ⟨applyShapesDelta ids (ds.getLastD d).1 (ds.getLastD d).2
              (capturePositions shapes0 ids) shapes0,
           capturePositions shapes0 ids⟩ :=
        ih d (fun p hp => hnt p (List.mem_cons_of_mem d hp))
      _ = ⟨applyShapesDelta ids ((d :: ds).getLastD e).1 ((d :: ds).getLastD e).2
              (capturePositions shapes0 ids) shapes0,
           capturePositions shapes0 ids⟩ := by rw [List.getLastD_cons]

/-- Amended claim C2: during a multi-shape drag whose baseline is captured at
drag start, applying the `handleShapesMove` update for each total pointer
delta `d_1, ..., d_n` in order yields exactly the state of a single update
with `d_n`, PROVIDED no delta after the first is tiny (smaller than 0.1 in
absolute value in both axes).  A tiny later delta re-triggers the source's
drag-start detection and re-captures the baseline mid-drag, breaking the
equality (see the counterexample). -/
theorem runShapesMoves_only_last_matters (shapes0 : List Shape) (ids : List String)
    (d1 : ℚ × ℚ) (rest : List (ℚ × ℚ))
    (hnt : ∀ p ∈ rest, ¬(|p.1| < 1/10 ∧ |p.2| < 1/10)) :
    (runShapesMoves ids (d1 :: rest) ⟨shapes0, capturePositions shapes0 ids⟩).shapes
      = (handleShapesMove ids (rest.getLastD d1).1 (rest.getLastD d1).2
          ⟨shapes0, capturePositions shapes0 ids⟩).shapes := by
  have h1 : runShapesMoves ids (d1 :: rest) ⟨shapes0, capturePositions shapes0 ids⟩
      = runShapesMoves ids rest
          (handleShapesMove ids d1.1 d1.2 ⟨shapes0, capturePositions shapes0 ids⟩) := rfl
  rw [h1, handleShapesMove_from_baseline shapes0 ids d1.1 d1.2,
    runShapesMoves_applied_aux shapes0 ids rest d1 hnt,
    handleShapesMove_from_baseline shapes0 ids]

/-- Witness for the amended claim C2: two squares dragged by the delta
sequence `(0,0), (5,0), (7,1)` end exactly where the single update `(7,1)`
puts them. -/
theorem runShapesMoves_only_last_matters_witness :
    (∀ p ∈ [((5 : ℚ), (0 : ℚ)), (7, 1)], ¬(|p.1| < 1/10 ∧ |p.2| < 1/10)) ∧
      (runShapesMoves ["a", "b"] [(0, 0), (5, 0), (7, 1)]
          ⟨[⟨"a", .square, 0, 0, 1, 1, "", none⟩, ⟨"b", .square, 10, 0, 1, 1, "", none⟩],
           capturePositions [⟨"a", .square, 0, 0, 1, 1, "", none⟩,
             ⟨"b", .square, 10, 0, 1, 1, "", none⟩] ["a", "b"]⟩).shapes
        = (handleShapesMove ["a", "b"]
            (([((5 : ℚ), (0 : ℚ)), (7, 1)].getLastD (0, 0)).1)
            (([((5 : ℚ), (0 : ℚ)), (7, 1)].getLastD (0, 0)).2)
            ⟨[⟨"a", .square, 0, 0, 1, 1, "", none⟩, ⟨"b", .square, 10, 0, 1, 1, "", none⟩],
             capturePositions [⟨"a", .square, 0, 0, 1, 1, "", none⟩,
               ⟨"b", .square, 10, 0, 1, 1, "", none⟩] ["a", "b"]⟩).shapes := by
  have hnt : ∀ p ∈ [((5 : ℚ), (0 : ℚ)), (7, 1)], ¬(|p.1| < 1/10 ∧ |p.2| < 1/10) := by
    intro p hp
    simp only [List.mem_cons, List.not_mem_nil, or_false] at hp
    rcases hp with rfl | rfl
    · intro hcon
      exact absurd hcon.1 (by norm_num)
    · intro hcon
      exact absurd hcon.1 (by norm_num)
  exact ⟨hnt, runShapesMoves_only_last_matters _ ["a", "b"] (0, 0) _ hnt⟩

/-- Counterexample to claim C2 as stated: with the baseline captured at drag
start, the delta sequence `(5,0), (0,0), (2,0)` does NOT end where the single
update `(2,0)` would put the shapes — the tiny intermediate delta `(0,0)`
re-captures the baseline from the already-moved positions, so the drag
accumulates (shape "a" ends at x = 7 instead of x = 2). -/
theorem runShapesMoves_accumulates_on_tiny_delta :
    (runShapesMoves ["a", "b"] [(5, 0), (0, 0), (2, 0)]
        ⟨[⟨"a", .square, 0, 0, 1, 1, "", none⟩, ⟨"b", .square, 10, 0, 1, 1, "", none⟩],
         capturePositions [⟨"a", .square, 0, 0, 1, 1, "", none⟩,
           ⟨"b", .square, 10, 0, 1, 1, "", none⟩] ["a", "b"]⟩).shapes
      ≠ (handleShapesMove ["a", "b"] 2 0
        ⟨[⟨"a", .square, 0, 0, 1, 1, "", none⟩, ⟨"b", .square, 10, 0, 1, 1, "", none⟩],
         capturePositions [⟨"a", .square, 0, 0, 1, 1, "", none⟩,
           ⟨"b", .square, 10, 0, 1, 1, "", none⟩] ["a", "b"]⟩).shapes := by
  norm_num [runShapesMoves, handleShapesMove, applyShapesDelta, capturePositions, lookupPos]

end Octobase

namespace Octobase

/-- Claim C9: a move operation referencing a shape id absent from the current
shape list silently skips that id for the frame.  For the single-shape move
the list is returned unchanged; for the batch move the absent id is inert —
the update equals the update without it, every other addressed shape is
updated as normal, and no entry is created or deleted (the id sequence of the
list is preserved).  Both operations are total functions: no error is
raised. -/
theorem moveOps_skip_missing_id (shapes : List Shape) (ref : List (String × ℚ × ℚ))
    (sid : String) (nx ny dx dy : ℚ) (ids : List String)
    (hmiss : sid ∉ shapes.map Shape.id) :
    (handleShapeMove sid nx ny ⟨shapes, ref⟩).shapes = shapes ∧
      handleShapesMove (sid :: ids) dx dy ⟨shapes, ref⟩
        = handleShapesMove ids dx dy ⟨shapes, ref⟩ ∧
      (handleShapesMove (sid :: ids) dx dy ⟨shapes, ref⟩).shapes.map Shape.id
        = shapes.map Shape.id := by
  have hne : ∀ sh ∈ shapes, sh.id ≠ sid := by
    intro sh hsh h
    exact hmiss (h ▸ List.mem_map_of_mem Shape.id hsh)
  have hcon : ∀ sh ∈ shapes, (sid :: ids).contains sh.id = ids.contains sh.id := by
    intro sh hsh
    simp [List.contains_cons, hne sh hsh]
  have hcap : capturePositions shapes (sid :: ids) = capturePositions shapes ids := by
    unfold capturePositions
    rw [List.filter_congr hcon]
  have happ : ∀ r : List (String × ℚ × ℚ),
      applyShapesDelta (sid :: ids) dx dy r shapes = applyShapesDelta ids dx dy r shapes := by
    intro r
    unfold applyShapesDelta
    refine List.map_congr_left ?_
    intro sh hsh
    rw [hcon sh hsh]
  refine ⟨?_, ?_, ?_⟩
  · unfold handleShapeMove
    dsimp only
    calc shapes.map _ = shapes.map id := List.map_congr_left fun sh hsh => by
          have h : (sh.id == sid) = false := by simp [hne sh hsh]
          simp only [h, id_eq]
          rw [if_neg Bool.false_ne_true]
      _ = shapes := List.map_id shapes
  · unfold handleShapesMove
    dsimp only
    rw [hcap, happ]
  · unfold handleShapesMove
    dsimp only
    rw [applyShapesDelta_map_id]

/-- Witness for claim C9: moving the absent id "z" (alone and in a batch with
"a") over a one-square list. -/
theorem moveOps_skip_missing_id_witness :
    ("z" ∉ [Shape.mk "a" .square 0 0 1 1 "" none].map Shape.id) ∧
      (handleShapeMove "z" 7 8 ⟨[Shape.mk "a" .square 0 0 1 1 "" none], []⟩).shapes
        = [Shape.mk "a" .square 0 0 1 1 "" none] ∧
      handleShapesMove ["z", "a"] 2 3 ⟨[Shape.mk "a" .square 0 0 1 1 "" none], []⟩
        = handleShapesMove ["a"] 2 3 ⟨[Shape.mk "a" .square 0 0 1 1 "" none], []⟩ := by
  have hmiss : "z" ∉ [Shape.mk "a" .square 0 0 1 1 "" none].map Shape.id := by simp
  have h := moveOps_skip_missing_id [Shape.mk "a" .square 0 0 1 1 "" none] [] "z" 7 8 2 3
    ["a"] hmiss
  exact ⟨hmiss, h.1, h.2.1⟩

end Octobase
